import Mathlib

/-!
Shallow embedding of the trim-editor core of the web-audio-sampler
repository, together with proofs of its specified properties.

Pixel coordinates, times and sample values are modelled as rationals
(`ℚ`): the JavaScript source computes with IEEE doubles, but every
property below is stated by the specification as exact arithmetic, so
the exact field `ℚ` is the faithful executable model.
-/

/-! ## TrimbarsDrawer (trim-bar state machine)

Embedding of `class TrimbarsDrawer`: each bar carries a pixel
position `x`, a display `color`, and the interaction flags `selected`
(hover) and `dragged`.  The canvas is represented by its width only;
drawing calls have no effect on this state. -/

structure TrimBar where
  x : ℚ
  color : String
  selected : Bool
  dragged : Bool
  deriving Repr, DecidableEq

structure TrimbarsDrawer where
  width : ℚ
  leftTrimBar : TrimBar
  rightTrimBar : TrimBar
  deriving Repr, DecidableEq

namespace TrimbarsDrawer

/-- The constructor `new TrimbarsDrawer(canvas, leftTrimBarX = 0,
rightTrimBarX = null)`: the right bar defaults to the canvas width when
no explicit position is given. -/
def create (w : ℚ) (leftTrimBarX : ℚ := 0) (rightTrimBarX : Option ℚ := none) :
    TrimbarsDrawer :=
  { width := w
    leftTrimBar := { x := leftTrimBarX, color := "white", selected := false, dragged := false }
    rightTrimBar := { x := rightTrimBarX.getD w, color := "white", selected := false, dragged := false } }

/-- Squared Euclidean distance.  The source's `distance` helper returns
`Math.sqrt(dx*dx + dy*dy)` and is only ever compared against the
constant 15; since the square root is monotone and both sides are
nonnegative, `distance < 15` holds exactly when `distSq < 15^2 = 225`,
which is how every proximity test below is phrased. -/
def distSq (x1 y1 x2 y2 : ℚ) : ℚ :=
  (x2 - x1) * (x2 - x1) + (y2 - y1) * (y2 - y1)

/-- `highlightTrimBarsWhenClose(mousePos)`: the left bar is tested
first against the grab point `(leftX + 5, 8)`; the right bar is then
tested against `(rightX - 5, 8)` and sees the left bar's updated
selection flag. -/
def highlightTrimBarsWhenClose (s : TrimbarsDrawer) (mx my : ℚ) : TrimbarsDrawer :=
  let l := s.leftTrimBar
  let r := s.rightTrimBar
  let l' :=
    if distSq mx my (l.x + 5) 8 < 225 ∧ r.selected = false then
      { l with color := "red", selected := true }
    else if l.dragged = false then
      { l with color := "white", selected := false }
    else l
  let r' :=
    if distSq mx my (r.x - 5) 8 < 225 ∧ l'.selected = false then
      { r with color := "red", selected := true }
    else if r.dragged = false then
      { r with color := "white", selected := false }
    else r
  { s with leftTrimBar := l', rightTrimBar := r' }

/-- `startDrag()`: a selected bar begins dragging. -/
def startDrag (s : TrimbarsDrawer) : TrimbarsDrawer :=
  let l := if s.leftTrimBar.selected = true then { s.leftTrimBar with dragged := true } else s.leftTrimBar
  let r := if s.rightTrimBar.selected = true then { s.rightTrimBar with dragged := true } else s.rightTrimBar
  { s with leftTrimBar := l, rightTrimBar := r }

/-- `stopDrag()`: each dragged bar is released (flags cleared) and then
clamped to the other bar's position if the order is violated; the right
bar's check sees the left bar's already-corrected position. -/
def stopDrag (s : TrimbarsDrawer) : TrimbarsDrawer :=
  let s1 :=
    if s.leftTrimBar.dragged = true then
      let l := { s.leftTrimBar with dragged := false, selected := false }
      let l := if l.x > s.rightTrimBar.x then { l with x := s.rightTrimBar.x } else l
      { s with leftTrimBar := l }
    else s
  if s1.rightTrimBar.dragged = true then
    let r := { s1.rightTrimBar with dragged := false, selected := false }
    let r := if r.x < s1.leftTrimBar.x then { r with x := s1.leftTrimBar.x } else r
    { s1 with rightTrimBar := r }
  else s1

/-- `moveTrimBars(mousePos)`: re-run the hover test, clamp the pointer
x to `[0, width]`, then move each dragged bar to the clamped x unless
the move would cross the other bar (in which case it is ignored for
this frame).  The right bar's test sees the left bar's updated
position. -/
def moveTrimBars (s : TrimbarsDrawer) (mx my : ℚ) : TrimbarsDrawer :=
  let s1 := highlightTrimBarsWhenClose s mx my
  let clampedX := max 0 (min mx s1.width)
  let s2 :=
    if s1.leftTrimBar.dragged = true ∧ clampedX ≤ s1.rightTrimBar.x then
      { s1 with leftTrimBar := { s1.leftTrimBar with x := clampedX } }
    else s1
  if s2.rightTrimBar.dragged = true ∧ s2.leftTrimBar.x ≤ clampedX then
    { s2 with rightTrimBar := { s2.rightTrimBar with x := clampedX } }
  else s2

/-- `setTrimPositions(leftX, rightX)`: clamp both arguments to
`[0, width]`, then swap if the order is inverted. -/
def setTrimPositions (s : TrimbarsDrawer) (leftX rightX : ℚ) : TrimbarsDrawer :=
  let l := max 0 (min leftX s.width)
  let r := max 0 (min rightX s.width)
  if l > r then
    { s with leftTrimBar := { s.leftTrimBar with x := r },
             rightTrimBar := { s.rightTrimBar with x := l } }
  else
    { s with leftTrimBar := { s.leftTrimBar with x := l },
             rightTrimBar := { s.rightTrimBar with x := r } }

/-- `reset()`: bars return to the full range with all flags cleared. -/
def reset (s : TrimbarsDrawer) : TrimbarsDrawer :=
  { s with
    leftTrimBar := { s.leftTrimBar with x := 0, selected := false, dragged := false }
    rightTrimBar := { s.rightTrimBar with x := s.width, selected := false, dragged := false } }

/-- `getTrimPositions()`. -/
def getTrimPositions (s : TrimbarsDrawer) : ℚ × ℚ :=
  (s.leftTrimBar.x, s.rightTrimBar.x)

/-- The pixel-ordering invariant of the specification:
`0 <= leftPixel <= rightPixel <= surfaceWidth`. -/
def TrimInv (s : TrimbarsDrawer) : Prop :=
  0 ≤ s.leftTrimBar.x ∧ s.leftTrimBar.x ≤ s.rightTrimBar.x ∧ s.rightTrimBar.x ≤ s.width

/-- Hover mutual exclusion: the two bars are never both selected. -/
def SelInv (s : TrimbarsDrawer) : Prop :=
  ¬ (s.leftTrimBar.selected = true ∧ s.rightTrimBar.selected = true)

/-- States reachable from the default-constructed drawer (bars at 0 and
the canvas width) by the public mutating operations. -/
inductive Reaches : TrimbarsDrawer → Prop where
  | init (w : ℚ) (hw : 0 ≤ w) : Reaches (create w)
  | highlight (s : TrimbarsDrawer) (mx my : ℚ) :
      Reaches s → Reaches (highlightTrimBarsWhenClose s mx my)
  | move (s : TrimbarsDrawer) (mx my : ℚ) :
      Reaches s → Reaches (moveTrimBars s mx my)
  | start (s : TrimbarsDrawer) : Reaches s → Reaches (startDrag s)
  | stop (s : TrimbarsDrawer) : Reaches s → Reaches (stopDrag s)
  | setPos (s : TrimbarsDrawer) (lx rx : ℚ) :
      Reaches s → Reaches (setTrimPositions s lx rx)
  | doReset (s : TrimbarsDrawer) : Reaches s → Reaches (reset s)

end TrimbarsDrawer

/-! ## Audio buffers and peak extraction (WaveformDrawer)

A decoded `AudioBuffer` is modelled by its per-channel sample lists and
its duration in seconds.  `getPeaks` is the peak-extraction routine of
`WaveformDrawer`; its inner `for (j = start; j < end && j < total;
j += step)` loop is embedded as the fuel-indexed `peakLoop`, with fuel
`sampleSize` (an overapproximation of the iteration count, since each
iteration advances `j` by at least one). -/

structure AudioBuffer where
  channels : List (List ℚ)
  duration : ℚ
  deriving Repr, DecidableEq

/-- `buffer.getChannelData(n)`. -/
def AudioBuffer.getChannelData (b : AudioBuffer) (n : ℕ) : List ℚ :=
  b.channels.getD n []

/-- The inner scanning loop of `getPeaks`: starting at index `j`, while
`j < stop` and `j < total`, fold in `|channelData[j]|` and advance by
`step`.  Runs for at most `fuel` iterations. -/
def peakLoop (data : List ℚ) (total stop step : ℕ) : ℕ → ℕ → ℚ → ℚ
  | 0, _, peak => peak
  | fuel + 1, j, peak =>
    if j < stop ∧ j < total then
      peakLoop data total stop step fuel (j + step) (max peak |data.getD j 0|)
    else peak

/-- `WaveformDrawer.getPeaks()`: one peak per pixel column of the
display width, scanning the first channel with stride `step`
(`this.sampleStep || Math.max(1, Math.floor(sampleSize / 10))`; a zero
`sampleStep` is falsy in JavaScript, hence also falls back to the
default). -/
def getPeaks (buf : AudioBuffer) (displayWidth : ℕ) (sampleStep : Option ℕ) : List ℚ :=
  let channelData := buf.getChannelData 0
  let totalSamples := channelData.length
  let sampleSize := totalSamples / displayWidth
  let step :=
    match sampleStep with
    | some s => if s = 0 then max 1 (sampleSize / 10) else s
    | none => max 1 (sampleSize / 10)
  (List.range displayWidth).map fun i =>
    let start := i * sampleSize
    let stop := start + sampleSize
    peakLoop channelData totalSamples stop step sampleSize start 0

/-- The index sequence `start, start + step, start + 2*step, ...`
truncated below `stop`, used to state what `peakLoop` scans. -/
def strideIdx (stop step : ℕ) : ℕ → ℕ → List ℕ
  | 0, _ => []
  | fuel + 1, j => if j < stop then j :: strideIdx stop step fuel (j + step) else []

/-- Folding the running maximum of absolute sample values over a list
of indices, the form in which a column's peak is specified. -/
def maxAbsFold (data : List ℚ) (acc : ℚ) (l : List ℕ) : ℚ :=
  l.foldl (fun m k => max m |data.getD k 0|) acc

/-! ## Time mapping (utils.js) -/

/-- `pixelToSeconds(x, bufferDuration, canvasWidth)`. -/
def pixelToSeconds (x bufferDuration canvasWidth : ℚ) : ℚ :=
  (x / canvasWidth) * bufferDuration

/-- `secondsToPixel(seconds, bufferDuration, canvasWidth)`. -/
def secondsToPixel (seconds bufferDuration canvasWidth : ℚ) : ℚ :=
  (seconds / bufferDuration) * canvasWidth

/-! ## SoundSample

Per-pad aggregate of `FinalSampler`: decoded buffer, pixel trim
positions, derived time window, and loading flags.  `play` is embedded
as a pure function returning the playback action the method would
request from the audio graph (`none` when it returns early). -/

structure SoundSample where
  url : String
  name : String
  index : ℕ
  decodedBuffer : Option AudioBuffer
  leftTrimPosition : ℚ
  rightTrimPosition : ℚ
  startOffset : ℚ
  duration : ℚ
  loaded : Bool
  loading : Bool
  loadProgress : ℚ
  error : Option String
  deriving Repr, DecidableEq

namespace SoundSample

/-- The `SoundSample` constructor. -/
def create (url name : String) (index : ℕ) : SoundSample :=
  { url := url, name := name, index := index, decodedBuffer := none
    leftTrimPosition := 0, rightTrimPosition := 0
    startOffset := 0, duration := 0
    loaded := false, loading := false, loadProgress := 0, error := none }

/-- `isLoaded()`. -/
def isLoaded (s : SoundSample) : Bool := s.loaded

/-- `setTrimPositions(leftX, rightX, canvasWidth)`: store the pixel
positions, then (only when a buffer is present and the width is
positive) derive the time window from them. -/
def setTrimPositions (s : SoundSample) (leftX rightX canvasWidth : ℚ) : SoundSample :=
  let s1 := { s with leftTrimPosition := leftX, rightTrimPosition := rightX }
  match s.decodedBuffer with
  | some buf =>
    if 0 < canvasWidth then
      { s1 with startOffset := (leftX / canvasWidth) * buf.duration
                duration := ((rightX - leftX) / canvasWidth) * buf.duration }
    else s1
  | none => s1

/-- `getTrimSettings()`. -/
def getTrimSettings (s : SoundSample) : ℚ × ℚ × ℚ × ℚ :=
  (s.startOffset, s.duration, s.leftTrimPosition, s.rightTrimPosition)

/-- The playback request `play` issues: either the full buffer
(`source.start(0)`) or an explicit window
(`source.start(0, startOffset, duration)`). -/
inductive PlayAction where
  | full
  | trimmed (offset dur : ℚ)
  deriving Repr, DecidableEq

/-- `play(audioContext, destination)`: early-return `null` for an
unloaded sample; otherwise start the trimmed window exactly when
`0 < duration < buffer.duration`, and the full buffer otherwise. -/
def play (s : SoundSample) : Option PlayAction :=
  if s.loaded = false then none
  else
    match s.decodedBuffer with
    | none => none
    | some buf =>
      if 0 < s.duration ∧ s.duration < buf.duration then
        some (PlayAction.trimmed s.startOffset s.duration)
      else some PlayAction.full

/-- `reset()`. -/
def resetSample (s : SoundSample) : SoundSample :=
  { s with decodedBuffer := none, loaded := false, loading := false
           loadProgress := 0, error := none, startOffset := 0, duration := 0
           leftTrimPosition := 0, rightTrimPosition := 0 }

end SoundSample

/-! ## SamplerEngine

The engine's observer callbacks are modelled by returning the list of
events an operation emits, in order; the engine state itself holds the
pad array and the master volume. -/

inductive EngineEvent where
  | progress (index : ℕ) (percentage loaded total : ℚ)
  | stateChange (index : ℕ) (state : String) (error : Option String)
  | play (index : ℕ)
  deriving Repr, DecidableEq

structure SamplerEngine where
  padCount : ℕ
  samples : List (Option SoundSample)
  volume : ℚ
  deriving Repr, DecidableEq

namespace SamplerEngine

/-- The `SamplerEngine` constructor: `padCount` empty pads. -/
def create (padCount : ℕ) : SamplerEngine :=
  { padCount := padCount, samples := List.replicate padCount none, volume := 1 }

/-- `playSound(index)`: reject an out-of-range index, then a missing or
unloaded sample, with no event and no state change; otherwise delegate
to the sample's `play` and emit the play event.  The JavaScript index
may be negative, hence `ℤ`. -/
def playSound (e : SamplerEngine) (index : ℤ) :
    SamplerEngine × List EngineEvent × Option SoundSample.PlayAction :=
  if index < 0 ∨ (e.padCount : ℤ) ≤ index then (e, [], none)
  else
    match e.samples.getD index.toNat none with
    | none => (e, [], none)
    | some sample =>
      if sample.isLoaded = false then (e, [], none)
      else (e, [EngineEvent.play index.toNat], sample.play)

/-- `updateTrimBars(index, leftX, rightX, canvasWidth)`: forward to the
sample's `setTrimPositions` only when the slot holds a loaded sample;
otherwise do nothing.  The method emits no events in either case. -/
def updateTrimBars (e : SamplerEngine) (index : ℕ) (leftX rightX canvasWidth : ℚ) :
    SamplerEngine × List EngineEvent :=
  match e.samples.getD index none with
  | none => (e, [])
  | some sample =>
    if sample.isLoaded = true then
      ({ e with samples :=
          e.samples.set index (some (sample.setTrimPositions leftX rightX canvasWidth)) }, [])
    else (e, [])

end SamplerEngine

/-! ## Concrete fixtures

Concrete states used to instantiate the theorems below on explicit
inputs. -/

/-- A drawer mid-drag: surface 800 px wide, left bar at 100 px being
dragged, right bar at 300 px idle. -/
def sampleDragState : TrimbarsDrawer :=
  { width := 800
    leftTrimBar := { x := 100, color := "red", selected := true, dragged := true }
    rightTrimBar := { x := 300, color := "white", selected := false, dragged := false } }

/-- A drawer whose two grab points coincide at `(105, 8)`: left bar at
100 px, right bar at 110 px, nothing selected. -/
def hoverTestState : TrimbarsDrawer :=
  { width := 800
    leftTrimBar := { x := 100, color := "white", selected := false, dragged := false }
    rightTrimBar := { x := 110, color := "white", selected := false, dragged := false } }

/-- A four-sample mono buffer. -/
def testBuffer : AudioBuffer :=
  { channels := [[1, -3, 2, -1]], duration := 4 }

/-- A loaded sample holding a 4-second buffer. -/
def loadedSample4 : SoundSample :=
  { SoundSample.create "sounds/a.mp3" "A" 0 with
      decodedBuffer := some { channels := [], duration := 4 }, loaded := true }

/-- A loaded sample holding a 10-second buffer. -/
def loadedSample10 : SoundSample :=
  { SoundSample.create "sounds/b.mp3" "B" 1 with
      decodedBuffer := some { channels := [], duration := 10 }, loaded := true }

/-- A freshly constructed two-pad engine (no sample loaded). -/
def emptyEngine : SamplerEngine := SamplerEngine.create 2

/-! ## Lemmas: peak extraction -/

/-- The scanning loop computes exactly the running maximum over the
stride-index sequence (the loop guard `j < stop && j < total` is the
guard `j < min stop total`). -/
lemma peakLoop_eq_maxAbsFold (data : List ℚ) (total stop step : ℕ) :
    ∀ fuel j peak,
      peakLoop data total stop step fuel j peak
        = maxAbsFold data peak (strideIdx (min stop total) step fuel j) := by
  intro fuel
  induction fuel with
  | zero => intro j peak; rfl
  | succ n ih =>
    intro j peak
    by_cases h : j < stop ∧ j < total
    · have hm : j < min stop total := lt_min h.1 h.2
      simp only [peakLoop, strideIdx, if_pos h, if_pos hm, maxAbsFold, List.foldl_cons]
      exact ih (j + step) (max peak |data.getD j 0|)
    · have hm : ¬ j < min stop total := by
        rw [lt_min_iff]; exact h
      simp only [peakLoop, strideIdx, if_neg h, if_neg hm, maxAbsFold, List.foldl_nil]

/-- With enough fuel and a positive step, the stride-index sequence
contains exactly the indices `j, j + step, j + 2*step, ...` that lie
below `stop`. -/
lemma strideIdx_mem (stop step : ℕ) (hstep : 0 < step) :
    ∀ fuel j, stop ≤ j + fuel → ∀ m,
      m ∈ strideIdx stop step fuel j ↔ (∃ k, m = j + k * step) ∧ m < stop := by
  intro fuel
  induction fuel with
  | zero =>
    intro j hfuel m
    simp only [strideIdx, List.not_mem_nil, false_iff]
    rintro ⟨⟨k, rfl⟩, hm⟩
    have : j ≤ j + k * step := Nat.le_add_right _ _
    omega
  | succ n ih =>
    intro j hfuel m
    by_cases hj : j < stop
    · simp only [strideIdx, if_pos hj, List.mem_cons]
      rw [ih (j + step) (by omega) m]
      constructor
      · rintro (rfl | ⟨⟨k, rfl⟩, hm⟩)
        · exact ⟨⟨0, by simp⟩, hj⟩
        · refine ⟨⟨k + 1, ?_⟩, hm⟩
          rw [Nat.succ_mul]; omega
      · rintro ⟨⟨k, rfl⟩, hm⟩
        match k with
        | 0 => left; simp
        | k' + 1 =>
          right
          refine ⟨⟨k', ?_⟩, hm⟩
          rw [Nat.succ_mul] at hm ⊢; omega
    · simp only [strideIdx, if_neg hj, List.not_mem_nil, false_iff]
      rintro ⟨⟨k, rfl⟩, hm⟩
      have : j ≤ j + k * step := Nat.le_add_right _ _
      omega

/-- The initial accumulator is a lower bound of the fold. -/
lemma maxAbsFold_init_le (data : List ℚ) :
    ∀ (l : List ℕ) (acc : ℚ), acc ≤ maxAbsFold data acc l := by
  intro l
  induction l with
  | nil => intro acc; simp [maxAbsFold]
  | cons a t ih =>
    intro acc
    calc acc ≤ max acc |data.getD a 0| := le_max_left _ _
    _ ≤ maxAbsFold data (max acc |data.getD a 0|) t := ih _
    _ = maxAbsFold data acc (a :: t) := rfl

/-- Every scanned sample's absolute value is bounded by the fold. -/
lemma maxAbsFold_le (data : List ℚ) :
    ∀ (l : List ℕ) (acc : ℚ) (m : ℕ), m ∈ l → |data.getD m 0| ≤ maxAbsFold data acc l := by
  intro l
  induction l with
  | nil => intro acc m hm; simp at hm
  | cons a t ih =>
    intro acc m hm
    rcases List.mem_cons.mp hm with rfl | hm'
    · calc |data.getD m 0| ≤ max acc |data.getD m 0| := le_max_right _ _
      _ ≤ maxAbsFold data (max acc |data.getD m 0|) t := maxAbsFold_init_le data t _
      _ = maxAbsFold data acc (m :: t) := rfl
    · exact ih _ m hm'

/-- The fold is attained: it is the accumulator or one of the scanned
absolute values. -/
lemma maxAbsFold_attained (data : List ℚ) :
    ∀ (l : List ℕ) (acc : ℚ),
      maxAbsFold data acc l = acc ∨ ∃ m ∈ l, maxAbsFold data acc l = |data.getD m 0| := by
  intro l
  induction l with
  | nil => intro acc; left; rfl
  | cons a t ih =>
    intro acc
    have hstep : maxAbsFold data acc (a :: t) = maxAbsFold data (max acc |data.getD a 0|) t := rfl
    rcases ih (max acc |data.getD a 0|) with h | ⟨m, hm, h⟩
    · rcases max_choice acc |data.getD a 0| with hc | hc
      · left; rw [hstep, h, hc]
      · right; exact ⟨a, List.mem_cons_self a t, by rw [hstep, h, hc]⟩
    · right; exact ⟨m, List.mem_cons_of_mem a hm, by rw [hstep, h]⟩

/-! ## Lemmas: the trim-bar machine -/

namespace TrimbarsDrawer

lemma highlight_width (s : TrimbarsDrawer) (mx my : ℚ) :
    (highlightTrimBarsWhenClose s mx my).width = s.width := rfl

lemma highlight_left_x (s : TrimbarsDrawer) (mx my : ℚ) :
    (highlightTrimBarsWhenClose s mx my).leftTrimBar.x = s.leftTrimBar.x := by
  unfold highlightTrimBarsWhenClose; dsimp only; split_ifs <;> rfl

lemma highlight_right_x (s : TrimbarsDrawer) (mx my : ℚ) :
    (highlightTrimBarsWhenClose s mx my).rightTrimBar.x = s.rightTrimBar.x := by
  unfold highlightTrimBarsWhenClose; dsimp only; split_ifs <;> rfl

lemma highlight_left_dragged (s : TrimbarsDrawer) (mx my : ℚ) :
    (highlightTrimBarsWhenClose s mx my).leftTrimBar.dragged = s.leftTrimBar.dragged := by
  unfold highlightTrimBarsWhenClose; dsimp only; split_ifs <;> rfl

lemma highlight_right_dragged (s : TrimbarsDrawer) (mx my : ℚ) :
    (highlightTrimBarsWhenClose s mx my).rightTrimBar.dragged = s.rightTrimBar.dragged := by
  unfold highlightTrimBarsWhenClose; dsimp only; split_ifs <;> rfl

lemma move_left_selected (s : TrimbarsDrawer) (mx my : ℚ) :
    (moveTrimBars s mx my).leftTrimBar.selected
      = (highlightTrimBarsWhenClose s mx my).leftTrimBar.selected := by
  unfold moveTrimBars; dsimp only; split_ifs <;> rfl

lemma move_right_selected (s : TrimbarsDrawer) (mx my : ℚ) :
    (moveTrimBars s mx my).rightTrimBar.selected
      = (highlightTrimBarsWhenClose s mx my).rightTrimBar.selected := by
  unfold moveTrimBars; dsimp only; split_ifs <;> rfl

lemma trimInv_create (w : ℚ) (hw : 0 ≤ w) : TrimInv (create w) := by
  simp [TrimInv, create, hw]

lemma trimInv_width (s : TrimbarsDrawer) (h : TrimInv s) : 0 ≤ s.width :=
  le_trans (le_trans h.1 h.2.1) h.2.2

lemma trimInv_highlight (s : TrimbarsDrawer) (mx my : ℚ) (h : TrimInv s) :
    TrimInv (highlightTrimBarsWhenClose s mx my) := by
  simpa [TrimInv, highlight_left_x, highlight_right_x, highlight_width] using h

lemma trimInv_move (s : TrimbarsDrawer) (mx my : ℚ) (h : TrimInv s) :
    TrimInv (moveTrimBars s mx my) := by
  have h1 := trimInv_highlight s mx my h
  have hw := trimInv_width _ h1
  obtain ⟨h0, hlr, hrw⟩ := h1
  have hc0 : (0:ℚ) ≤ max 0 (min mx (highlightTrimBarsWhenClose s mx my).width) :=
    le_max_left _ _
  have hcw : max 0 (min mx (highlightTrimBarsWhenClose s mx my).width)
      ≤ (highlightTrimBarsWhenClose s mx my).width :=
    max_le hw (min_le_right _ _)
  unfold moveTrimBars
  dsimp only
  split_ifs <;> refine ⟨?_, ?_, ?_⟩ <;> dsimp only <;> linarith

lemma trimInv_startDrag (s : TrimbarsDrawer) (h : TrimInv s) :
    TrimInv (startDrag s) := by
  unfold startDrag
  dsimp only
  split_ifs <;> simpa [TrimInv] using h

lemma trimInv_stopDrag (s : TrimbarsDrawer) (h : TrimInv s) :
    TrimInv (stopDrag s) := by
  obtain ⟨h0, hlr, hrw⟩ := h
  unfold stopDrag
  dsimp only
  split_ifs <;> refine ⟨?_, ?_, ?_⟩ <;> dsimp only <;> linarith

lemma trimInv_setTrimPositions (s : TrimbarsDrawer) (lx rx : ℚ) (hw : 0 ≤ s.width) :
    TrimInv (setTrimPositions s lx rx) := by
  have hl0 : (0:ℚ) ≤ max 0 (min lx s.width) := le_max_left _ _
  have hlw : max 0 (min lx s.width) ≤ s.width := max_le hw (min_le_right _ _)
  have hr0 : (0:ℚ) ≤ max 0 (min rx s.width) := le_max_left _ _
  have hrw : max 0 (min rx s.width) ≤ s.width := max_le hw (min_le_right _ _)
  unfold setTrimPositions
  dsimp only
  split_ifs with hswap
  · exact ⟨hr0, le_of_lt hswap, hlw⟩
  · exact ⟨hl0, le_of_not_lt hswap, hrw⟩

lemma trimInv_reset (s : TrimbarsDrawer) (hw : 0 ≤ s.width) : TrimInv (reset s) := by
  simp [TrimInv, reset, hw]

lemma selInv_create (w : ℚ) : SelInv (create w) := by
  simp [SelInv, create]

lemma selInv_highlight (s : TrimbarsDrawer) (mx my : ℚ) (h : SelInv s) :
    SelInv (highlightTrimBarsWhenClose s mx my) := by
  unfold highlightTrimBarsWhenClose
  dsimp only
  split_ifs <;> simp_all [SelInv]

lemma selInv_move (s : TrimbarsDrawer) (mx my : ℚ) (h : SelInv s) :
    SelInv (moveTrimBars s mx my) := by
  have := selInv_highlight s mx my h
  simpa [SelInv, move_left_selected, move_right_selected] using this

lemma selInv_startDrag (s : TrimbarsDrawer) (h : SelInv s) :
    SelInv (startDrag s) := by
  unfold startDrag
  dsimp only
  split_ifs <;> simp_all [SelInv]

lemma selInv_stopDrag (s : TrimbarsDrawer) (h : SelInv s) :
    SelInv (stopDrag s) := by
  unfold stopDrag
  dsimp only
  split_ifs <;> simp_all [SelInv]

lemma selInv_setTrimPositions (s : TrimbarsDrawer) (lx rx : ℚ) (h : SelInv s) :
    SelInv (setTrimPositions s lx rx) := by
  unfold setTrimPositions
  dsimp only
  split_ifs <;> simpa [SelInv] using h

lemma selInv_reset (s : TrimbarsDrawer) : SelInv (reset s) := by
  simp [SelInv, reset]

lemma setTrimPositions_width (s : TrimbarsDrawer) (lx rx : ℚ) :
    (setTrimPositions s lx rx).width = s.width := by
  unfold setTrimPositions; dsimp only; split_ifs <;> rfl

lemma startDrag_width (s : TrimbarsDrawer) : (startDrag s).width = s.width := rfl

lemma stopDrag_width (s : TrimbarsDrawer) : (stopDrag s).width = s.width := by
  unfold stopDrag; dsimp only; split_ifs <;> rfl

lemma move_width (s : TrimbarsDrawer) (mx my : ℚ) :
    (moveTrimBars s mx my).width = s.width := by
  unfold moveTrimBars; dsimp only; split_ifs <;> simp [highlight_width]

lemma reset_width (s : TrimbarsDrawer) : (reset s).width = s.width := rfl

lemma move_left_dragged (s : TrimbarsDrawer) (mx my : ℚ) :
    (moveTrimBars s mx my).leftTrimBar.dragged = s.leftTrimBar.dragged := by
  unfold moveTrimBars
  dsimp only
  split_ifs <;> simp [highlight_left_dragged]

lemma move_right_dragged (s : TrimbarsDrawer) (mx my : ℚ) :
    (moveTrimBars s mx my).rightTrimBar.dragged = s.rightTrimBar.dragged := by
  unfold moveTrimBars
  dsimp only
  split_ifs <;> simp [highlight_right_dragged]

/-- The left bar moves to the clamped pointer x exactly when it is
dragged and the move does not cross the right bar. -/
lemma move_left_x (s : TrimbarsDrawer) (mx my : ℚ) :
    (moveTrimBars s mx my).leftTrimBar.x =
      if s.leftTrimBar.dragged = true ∧ max 0 (min mx s.width) ≤ s.rightTrimBar.x
      then max 0 (min mx s.width) else s.leftTrimBar.x := by
  unfold moveTrimBars
  dsimp only
  simp only [highlight_left_dragged, highlight_right_dragged, highlight_left_x,
    highlight_right_x, highlight_width]
  split_ifs <;> simp_all [highlight_left_x, highlight_right_x, highlight_left_dragged,
    highlight_right_dragged, highlight_width]

/-- A right bar that is not dragged never moves during a pointer
move. -/
lemma move_right_x_of_not_dragged (s : TrimbarsDrawer) (mx my : ℚ)
    (h : s.rightTrimBar.dragged = false) :
    (moveTrimBars s mx my).rightTrimBar.x = s.rightTrimBar.x := by
  unfold moveTrimBars
  dsimp only
  simp only [highlight_left_dragged, highlight_right_dragged, highlight_left_x,
    highlight_right_x, highlight_width]
  split_ifs <;> simp_all [highlight_left_x, highlight_right_x, highlight_left_dragged,
    highlight_right_dragged, highlight_width]

/-- Every reachable drawer state satisfies both the pixel-ordering
invariant and hover mutual exclusion. -/
lemma reaches_inv (s : TrimbarsDrawer) (h : Reaches s) : TrimInv s ∧ SelInv s := by
  induction h with
  | init w hw => exact ⟨trimInv_create w hw, selInv_create w⟩
  | highlight s mx my _ ih =>
    exact ⟨trimInv_highlight s mx my ih.1, selInv_highlight s mx my ih.2⟩
  | move s mx my _ ih => exact ⟨trimInv_move s mx my ih.1, selInv_move s mx my ih.2⟩
  | start s _ ih => exact ⟨trimInv_startDrag s ih.1, selInv_startDrag s ih.2⟩
  | stop s _ ih => exact ⟨trimInv_stopDrag s ih.1, selInv_stopDrag s ih.2⟩
  | setPos s lx rx _ ih =>
    exact ⟨trimInv_setTrimPositions s lx rx (trimInv_width s ih.1),
      selInv_setTrimPositions s lx rx ih.2⟩
  | doReset s _ ih =>
    exact ⟨trimInv_reset s (trimInv_width s ih.1), selInv_reset s⟩

end TrimbarsDrawer

/-! ## Lemmas: SoundSample -/

namespace SoundSample

lemma setTrim_loaded (s : SoundSample) (l r w : ℚ) :
    (s.setTrimPositions l r w).loaded = s.loaded := by
  unfold setTrimPositions
  cases s.decodedBuffer <;> dsimp only <;> split_ifs <;> rfl

lemma setTrim_decodedBuffer (s : SoundSample) (l r w : ℚ) :
    (s.setTrimPositions l r w).decodedBuffer = s.decodedBuffer := by
  unfold setTrimPositions
  cases s.decodedBuffer <;> dsimp only <;> split_ifs <;> rfl

lemma setTrim_startOffset (s : SoundSample) (buf : AudioBuffer) (l r w : ℚ)
    (hb : s.decodedBuffer = some buf) (hw : 0 < w) :
    (s.setTrimPositions l r w).startOffset = (l / w) * buf.duration := by
  unfold setTrimPositions
  rw [hb]
  dsimp only
  rw [if_pos hw]

lemma setTrim_duration (s : SoundSample) (buf : AudioBuffer) (l r w : ℚ)
    (hb : s.decodedBuffer = some buf) (hw : 0 < w) :
    (s.setTrimPositions l r w).duration = ((r - l) / w) * buf.duration := by
  unfold setTrimPositions
  rw [hb]
  dsimp only
  rw [if_pos hw]

end SoundSample

/-! ## Claims -/

/-- C1: starting from the initial trim state (leftPixel = 0,
rightPixel = surfaceWidth, both handles idle), every trim-bar operation
(pointer-move handling via moveTrimBars, drag start, drag release via
stopDrag, programmatic setTrimPositions, reset) preserves the invariant
`0 <= leftPixel <= rightPixel <= surfaceWidth`: the invariant holds in
every reachable state, i.e. after each operation returns. -/
theorem trim_invariant_preserved (s : TrimbarsDrawer) (h : TrimbarsDrawer.Reaches s) :
    TrimbarsDrawer.TrimInv s :=
  (TrimbarsDrawer.reaches_inv s h).1

theorem trim_invariant_preserved_witness :
    TrimbarsDrawer.TrimInv
      (TrimbarsDrawer.stopDrag (TrimbarsDrawer.moveTrimBars
        (TrimbarsDrawer.startDrag (TrimbarsDrawer.highlightTrimBarsWhenClose
          (TrimbarsDrawer.create 800) 5 8)) 500 8)) :=
  trim_invariant_preserved _
    (TrimbarsDrawer.Reaches.stop _ (TrimbarsDrawer.Reaches.move _ 500 8
      (TrimbarsDrawer.Reaches.start _ (TrimbarsDrawer.Reaches.highlight _ 5 8
        (TrimbarsDrawer.Reaches.init 800 (by norm_num))))))

/-- C2 (counterexample): with surface width 800, the right bar at 300
and the left bar mid-drag at 100, a single pointer move to x = 500
leaves leftPixel at 100 — the move is rejected, not clamped to 300 —
and release then leaves leftPixel = 100, rightPixel = 300, refuting
the claim that the move results in leftPixel = 300 and that release
leaves leftPixel = rightPixel = 300. -/
theorem drag_clamp_counterexample :
    (TrimbarsDrawer.moveTrimBars sampleDragState 500 8).leftTrimBar.x = 100 ∧
    (TrimbarsDrawer.stopDrag
      (TrimbarsDrawer.moveTrimBars sampleDragState 500 8)).leftTrimBar.x = 100 ∧
    (TrimbarsDrawer.stopDrag
      (TrimbarsDrawer.moveTrimBars sampleDragState 500 8)).rightTrimBar.x = 300 ∧
    ¬ ((TrimbarsDrawer.moveTrimBars sampleDragState 500 8).leftTrimBar.x = 300 ∧
       (TrimbarsDrawer.stopDrag
         (TrimbarsDrawer.moveTrimBars sampleDragState 500 8)).leftTrimBar.x = 300) := by
  norm_num [sampleDragState, TrimbarsDrawer.moveTrimBars,
    TrimbarsDrawer.highlightTrimBarsWhenClose, TrimbarsDrawer.stopDrag,
    TrimbarsDrawer.distSq]

/-- C2 (amended): with surfaceWidth = 800 and rightPixel = 300, while
the left handle is dragging (and the right is not), a pointer move to
x = 500 is rejected: leftPixel keeps its previous value, in particular
never exceeding 300; and if the drag previously passed through x = 300
(so leftPixel = 300), the move to 500 followed by release leaves
leftPixel = rightPixel = 300. -/
theorem drag_move_rejected_amended (s : TrimbarsDrawer) (my my' : ℚ)
    (hw : s.width = 800) (hr : s.rightTrimBar.x = 300)
    (hld : s.leftTrimBar.dragged = true) (hrd : s.rightTrimBar.dragged = false) :
    (TrimbarsDrawer.moveTrimBars s 500 my).leftTrimBar.x = s.leftTrimBar.x ∧
    (s.leftTrimBar.x ≤ 300 → (TrimbarsDrawer.moveTrimBars s 500 my).leftTrimBar.x ≤ 300) ∧
    (TrimbarsDrawer.stopDrag (TrimbarsDrawer.moveTrimBars
      (TrimbarsDrawer.moveTrimBars s 300 my') 500 my)).leftTrimBar.x = 300 ∧
    (TrimbarsDrawer.stopDrag (TrimbarsDrawer.moveTrimBars
      (TrimbarsDrawer.moveTrimBars s 300 my') 500 my)).rightTrimBar.x = 300 := by
  have hmove1 : (TrimbarsDrawer.moveTrimBars s 500 my).leftTrimBar.x = s.leftTrimBar.x := by
    rw [TrimbarsDrawer.move_left_x, if_neg]
    rw [hw, hr]
    norm_num
  refine ⟨hmove1, fun h => by rw [hmove1]; exact h, ?_, ?_⟩
  all_goals {
    set t1 := TrimbarsDrawer.moveTrimBars s 300 my' with ht1
    have ht1l : t1.leftTrimBar.x = 300 := by
      rw [ht1, TrimbarsDrawer.move_left_x, if_pos]
      · rw [hw]; norm_num
      · rw [hw, hr, hld]; norm_num
    have ht1r : t1.rightTrimBar.x = 300 := by
      rw [ht1, TrimbarsDrawer.move_right_x_of_not_dragged s 300 my' hrd, hr]
    have ht1ld : t1.leftTrimBar.dragged = true := by
      rw [ht1, TrimbarsDrawer.move_left_dragged, hld]
    have ht1rd : t1.rightTrimBar.dragged = false := by
      rw [ht1, TrimbarsDrawer.move_right_dragged, hrd]
    have ht1w : t1.width = 800 := by rw [ht1, TrimbarsDrawer.move_width, hw]
    set t2 := TrimbarsDrawer.moveTrimBars t1 500 my with ht2
    have ht2l : t2.leftTrimBar.x = 300 := by
      rw [ht2, TrimbarsDrawer.move_left_x, if_neg, ht1l]
      rw [ht1w, ht1r]
      norm_num
    have ht2r : t2.rightTrimBar.x = 300 := by
      rw [ht2, TrimbarsDrawer.move_right_x_of_not_dragged t1 500 my ht1rd, ht1r]
    have ht2ld : t2.leftTrimBar.dragged = true := by
      rw [ht2, TrimbarsDrawer.move_left_dragged, ht1ld]
    have ht2rd : t2.rightTrimBar.dragged = false := by
      rw [ht2, TrimbarsDrawer.move_right_dragged, ht1rd]
    unfold TrimbarsDrawer.stopDrag
    dsimp only
    split_ifs <;> simp_all
  }

theorem drag_move_rejected_amended_witness :
    (TrimbarsDrawer.stopDrag (TrimbarsDrawer.moveTrimBars
      (TrimbarsDrawer.moveTrimBars sampleDragState 300 8) 500 8)).leftTrimBar.x = 300 ∧
    (TrimbarsDrawer.stopDrag (TrimbarsDrawer.moveTrimBars
      (TrimbarsDrawer.moveTrimBars sampleDragState 300 8) 500 8)).rightTrimBar.x = 300 :=
  ⟨(drag_move_rejected_amended sampleDragState 8 8 rfl rfl rfl rfl).2.2.1,
   (drag_move_rejected_amended sampleDragState 8 8 rfl rfl rfl rfl).2.2.2⟩

/-- C3: for every buffer and width > 0, peak extraction returns exactly
`width` peaks; peak i is the running maximum of the absolute values of
the first channel's samples at indices `start, start+step, start+2*step,
...` within `[i*sampleSize, (i+1)*sampleSize)` clamped to the frame
count, with `sampleSize = frameCount / width` and the default step
`max 1 (sampleSize / 10)`; every peak is nonnegative, and when
`frameCount < width` every peak is 0. -/
theorem getPeaks_spec (buf : AudioBuffer) (w : ℕ) (hw : 0 < w) :
    (getPeaks buf w none).length = w ∧
    (∀ i, i < w →
      (getPeaks buf w none).getD i 0 =
        maxAbsFold (buf.getChannelData 0) 0
          (strideIdx
            (min (i * ((buf.getChannelData 0).length / w) + (buf.getChannelData 0).length / w)
              (buf.getChannelData 0).length)
            (max 1 ((buf.getChannelData 0).length / w / 10))
            ((buf.getChannelData 0).length / w)
            (i * ((buf.getChannelData 0).length / w))) ∧
      (∀ m, m ∈ strideIdx
            (min (i * ((buf.getChannelData 0).length / w) + (buf.getChannelData 0).length / w)
              (buf.getChannelData 0).length)
            (max 1 ((buf.getChannelData 0).length / w / 10))
            ((buf.getChannelData 0).length / w)
            (i * ((buf.getChannelData 0).length / w)) ↔
          (∃ k, m = i * ((buf.getChannelData 0).length / w)
              + k * max 1 ((buf.getChannelData 0).length / w / 10)) ∧
          m < min (i * ((buf.getChannelData 0).length / w) + (buf.getChannelData 0).length / w)
              (buf.getChannelData 0).length) ∧
      (∀ m ∈ strideIdx
            (min (i * ((buf.getChannelData 0).length / w) + (buf.getChannelData 0).length / w)
              (buf.getChannelData 0).length)
            (max 1 ((buf.getChannelData 0).length / w / 10))
            ((buf.getChannelData 0).length / w)
            (i * ((buf.getChannelData 0).length / w)),
        |(buf.getChannelData 0).getD m 0| ≤ (getPeaks buf w none).getD i 0)) ∧
    (∀ p ∈ getPeaks buf w none, 0 ≤ p) ∧
    ((buf.getChannelData 0).length < w → ∀ p ∈ getPeaks buf w none, p = 0) := by
  have hcol : ∀ i, i < w →
      (getPeaks buf w none).getD i 0 =
        peakLoop (buf.getChannelData 0) (buf.getChannelData 0).length
          (i * ((buf.getChannelData 0).length / w) + (buf.getChannelData 0).length / w)
          (max 1 ((buf.getChannelData 0).length / w / 10))
          ((buf.getChannelData 0).length / w)
          (i * ((buf.getChannelData 0).length / w)) 0 := by
    intro i hi
    unfold getPeaks
    dsimp only
    rw [List.getD_eq_getElem?_getD, List.getElem?_map, List.getElem?_range hi]
    rfl
  refine ⟨?_, ?_, ?_, ?_⟩
  · unfold getPeaks; simp
  · intro i hi
    refine ⟨?_, ?_, ?_⟩
    · rw [hcol i hi, peakLoop_eq_maxAbsFold]
    · intro m
      exact strideIdx_mem _ _
        (Nat.lt_of_lt_of_le Nat.zero_lt_one (le_max_left _ _)) _ _
        (le_trans (min_le_left _ _) (le_refl _)) m
    · intro m hm
      rw [hcol i hi, peakLoop_eq_maxAbsFold]
      exact maxAbsFold_le _ _ 0 m hm
  · intro p hp
    unfold getPeaks at hp
    simp only [List.mem_map, List.mem_range] at hp
    obtain ⟨i, hi, rfl⟩ := hp
    rw [peakLoop_eq_maxAbsFold]
    exact maxAbsFold_init_le _ _ 0
  · intro hlt p hp
    unfold getPeaks at hp
    simp only [List.mem_map, List.mem_range] at hp
    obtain ⟨i, hi, rfl⟩ := hp
    rw [Nat.div_eq_of_lt hlt]
    rfl

theorem getPeaks_spec_witness :
    0 < 2 ∧ (getPeaks testBuffer 2 none).length = 2 ∧
    (∀ p ∈ getPeaks testBuffer 2 none, 0 ≤ p) :=
  ⟨Nat.zero_lt_two, (getPeaks_spec testBuffer 2 Nat.zero_lt_two).1,
   (getPeaks_spec testBuffer 2 Nat.zero_lt_two).2.2.1⟩

/-- C4: for every pair of arguments, including out-of-range and
inverted ones, the programmatic setTrimPositions clamps both to
`[0, surfaceWidth]` and swaps if inverted, so that afterward
`leftPixel <= rightPixel`, both lie in `[0, surfaceWidth]`, and the
results are exactly the min and max of the two clamped inputs; the
operation never fails. -/
theorem setTrimPositions_silent_correction (s : TrimbarsDrawer) (lx rx : ℚ)
    (hw : 0 ≤ s.width) :
    (TrimbarsDrawer.setTrimPositions s lx rx).leftTrimBar.x
      ≤ (TrimbarsDrawer.setTrimPositions s lx rx).rightTrimBar.x ∧
    0 ≤ (TrimbarsDrawer.setTrimPositions s lx rx).leftTrimBar.x ∧
    (TrimbarsDrawer.setTrimPositions s lx rx).leftTrimBar.x ≤ s.width ∧
    0 ≤ (TrimbarsDrawer.setTrimPositions s lx rx).rightTrimBar.x ∧
    (TrimbarsDrawer.setTrimPositions s lx rx).rightTrimBar.x ≤ s.width ∧
    (TrimbarsDrawer.setTrimPositions s lx rx).leftTrimBar.x
      = min (max 0 (min lx s.width)) (max 0 (min rx s.width)) ∧
    (TrimbarsDrawer.setTrimPositions s lx rx).rightTrimBar.x
      = max (max 0 (min lx s.width)) (max 0 (min rx s.width)) := by
  have hl0 : (0:ℚ) ≤ max 0 (min lx s.width) := le_max_left _ _
  have hlw : max 0 (min lx s.width) ≤ s.width := max_le hw (min_le_right _ _)
  have hr0 : (0:ℚ) ≤ max 0 (min rx s.width) := le_max_left _ _
  have hrw : max 0 (min rx s.width) ≤ s.width := max_le hw (min_le_right _ _)
  unfold TrimbarsDrawer.setTrimPositions
  dsimp only
  split_ifs with hswap
  · exact ⟨le_of_lt hswap, hr0, hrw, hl0, hlw,
      (min_eq_right (le_of_lt hswap)).symm, (max_eq_left (le_of_lt hswap)).symm⟩
  · exact ⟨le_of_not_lt hswap, hl0, hlw, hr0, hrw,
      (min_eq_left (le_of_not_lt hswap)).symm, (max_eq_right (le_of_not_lt hswap)).symm⟩

theorem setTrimPositions_silent_correction_witness :
    (TrimbarsDrawer.setTrimPositions (TrimbarsDrawer.create 800) 900 (-50)).leftTrimBar.x
      ≤ (TrimbarsDrawer.setTrimPositions (TrimbarsDrawer.create 800) 900 (-50)).rightTrimBar.x ∧
    0 ≤ (TrimbarsDrawer.setTrimPositions (TrimbarsDrawer.create 800) 900 (-50)).leftTrimBar.x ∧
    (TrimbarsDrawer.setTrimPositions (TrimbarsDrawer.create 800) 900 (-50)).leftTrimBar.x
      ≤ (TrimbarsDrawer.create 800).width :=
  ⟨(setTrimPositions_silent_correction (TrimbarsDrawer.create 800) 900 (-50) (by norm_num [TrimbarsDrawer.create])).1,
   (setTrimPositions_silent_correction (TrimbarsDrawer.create 800) 900 (-50) (by norm_num [TrimbarsDrawer.create])).2.1,
   (setTrimPositions_silent_correction (TrimbarsDrawer.create 800) 900 (-50) (by norm_num [TrimbarsDrawer.create])).2.2.1⟩

/-- C5: after any single pointer-move hover update from a reachable
state, at most one handle is selected, never both; and a pointer within
grab distance (distance < 15, i.e. squared distance < 225) of both grab
points with neither handle previously selected activates exactly the
left handle's hover state and leaves the right handle unselected. -/
theorem hover_mutual_exclusion :
    (∀ (s : TrimbarsDrawer) (mx my : ℚ), TrimbarsDrawer.Reaches s →
        TrimbarsDrawer.SelInv (TrimbarsDrawer.moveTrimBars s mx my)) ∧
    (∀ (s : TrimbarsDrawer) (mx my : ℚ),
        s.leftTrimBar.selected = false → s.rightTrimBar.selected = false →
        TrimbarsDrawer.distSq mx my (s.leftTrimBar.x + 5) 8 < 225 →
        TrimbarsDrawer.distSq mx my (s.rightTrimBar.x - 5) 8 < 225 →
        (TrimbarsDrawer.moveTrimBars s mx my).leftTrimBar.selected = true ∧
        (TrimbarsDrawer.moveTrimBars s mx my).rightTrimBar.selected = false) := by
  constructor
  · intro s mx my hs
    exact (TrimbarsDrawer.reaches_inv _ (TrimbarsDrawer.Reaches.move s mx my hs)).2
  · intro s mx my hl hr hdl hdr
    rw [TrimbarsDrawer.move_left_selected, TrimbarsDrawer.move_right_selected]
    unfold TrimbarsDrawer.highlightTrimBarsWhenClose
    dsimp only
    rw [if_pos ⟨hdl, hr⟩]
    dsimp only
    rw [if_neg]
    · split_ifs <;> simp_all
    · dsimp only
      rintro ⟨-, h⟩
      exact absurd h (by simp)

theorem hover_mutual_exclusion_witness :
    TrimbarsDrawer.SelInv (TrimbarsDrawer.moveTrimBars (TrimbarsDrawer.create 800) 5 8) ∧
    (TrimbarsDrawer.moveTrimBars hoverTestState 105 8).leftTrimBar.selected = true ∧
    (TrimbarsDrawer.moveTrimBars hoverTestState 105 8).rightTrimBar.selected = false :=
  ⟨hover_mutual_exclusion.1 (TrimbarsDrawer.create 800) 5 8
      (TrimbarsDrawer.Reaches.init 800 (by norm_num)),
   (hover_mutual_exclusion.2 hoverTestState 105 8 rfl rfl
      (by norm_num [hoverTestState, TrimbarsDrawer.distSq])
      (by norm_num [hoverTestState, TrimbarsDrawer.distSq])).1,
   (hover_mutual_exclusion.2 hoverTestState 105 8 rfl rfl
      (by norm_num [hoverTestState, TrimbarsDrawer.distSq])
      (by norm_num [hoverTestState, TrimbarsDrawer.distSq])).2⟩

/-- C6: for a sample holding a decoded buffer of duration d and a
canvas width w > 0, updating trim positions to (leftX, rightX) sets
`startOffset = pixelToSeconds leftX d w` and
`duration = pixelToSeconds rightX d w - startOffset`; in particular a
4-second buffer on an 800-px surface with leftX = 200, rightX = 600
yields startOffset = 1 and duration = 2. -/
theorem trim_window_derivation (s : SoundSample) (buf : AudioBuffer) (l r w : ℚ)
    (hb : s.decodedBuffer = some buf) (hw : 0 < w) :
    (s.setTrimPositions l r w).startOffset = pixelToSeconds l buf.duration w ∧
    (s.setTrimPositions l r w).duration
      = pixelToSeconds r buf.duration w - (s.setTrimPositions l r w).startOffset ∧
    (buf.duration = 4 → w = 800 → l = 200 → r = 600 →
      (s.setTrimPositions l r w).startOffset = 1 ∧
      (s.setTrimPositions l r w).duration = 2) := by
  have hoff := SoundSample.setTrim_startOffset s buf l r w hb hw
  have hdur := SoundSample.setTrim_duration s buf l r w hb hw
  refine ⟨hoff, ?_, ?_⟩
  · rw [hdur, hoff]
    unfold pixelToSeconds
    ring
  · intro h4 h800 h200 h600
    rw [hoff, hdur, h4, h800, h200, h600]
    norm_num

theorem trim_window_derivation_witness :
    (loadedSample4.setTrimPositions 200 600 800).startOffset = 1 ∧
    (loadedSample4.setTrimPositions 200 600 800).duration = 2 :=
  (trim_window_derivation loadedSample4 { channels := [], duration := 4 } 200 600 800
    rfl (by norm_num)).2.2 rfl rfl rfl rfl

/-- C7: for a loaded sample, when the stored trim duration is at least
the full buffer duration the playback request is the full buffer, not
an explicit window; an explicit (offset, duration) pair is issued only
when 0 < duration < bufferDuration; and a 10-second buffer trimmed to
the full surface width (leftX = 0, rightX = w) plays full. -/
theorem play_full_buffer_at_extent (s : SoundSample) (buf : AudioBuffer)
    (hl : s.loaded = true) (hb : s.decodedBuffer = some buf) :
    (buf.duration ≤ s.duration → s.play = some SoundSample.PlayAction.full) ∧
    (∀ o du, s.play = some (SoundSample.PlayAction.trimmed o du) →
        0 < du ∧ du < buf.duration) ∧
    (∀ w : ℚ, 0 < w → buf.duration = 10 →
        (s.setTrimPositions 0 w w).play = some SoundSample.PlayAction.full) := by
  refine ⟨?_, ?_, ?_⟩
  · intro hge
    have hcond : ¬ (0 < s.duration ∧ s.duration < buf.duration) := by
      rintro ⟨-, h2⟩; linarith
    unfold SoundSample.play
    simp [hl, hb, hcond]
  · intro o du h
    unfold SoundSample.play at h
    simp only [hl, hb, Bool.true_eq_false, if_false] at h
    split_ifs at h with hc
    · simp only [Option.some.injEq, SoundSample.PlayAction.trimmed.injEq] at h
      obtain ⟨-, rfl⟩ := h
      exact hc
    · simp at h
  · intro w hw hd
    have hb' : (s.setTrimPositions 0 w w).decodedBuffer = some buf :=
      (SoundSample.setTrim_decodedBuffer s 0 w w).trans hb
    have hl' : (s.setTrimPositions 0 w w).loaded = true := by
      rw [SoundSample.setTrim_loaded, hl]
    have hdur : (s.setTrimPositions 0 w w).duration = buf.duration := by
      rw [SoundSample.setTrim_duration s buf 0 w w hb hw, sub_zero,
        div_self (ne_of_gt hw), one_mul]
    have hcond : ¬ (0 < (s.setTrimPositions 0 w w).duration ∧
        (s.setTrimPositions 0 w w).duration < buf.duration) := by
      rw [hdur]
      rintro ⟨-, h2⟩
      exact lt_irrefl _ h2
    unfold SoundSample.play
    simp [hl', hb', hcond]

theorem play_full_buffer_at_extent_witness :
    (loadedSample10.setTrimPositions 0 800 800).play
      = some SoundSample.PlayAction.full :=
  (play_full_buffer_at_extent loadedSample10 { channels := [], duration := 10 }
    rfl rfl).2.2 800 (by norm_num) rfl

/-- C8: for every x in [0, w], d > 0 and w > 0, the composition
`secondsToPixel (pixelToSeconds x d w) d w` equals x exactly over the
rationals. -/
theorem pixel_seconds_roundtrip (x d w : ℚ) (hx0 : 0 ≤ x) (hxw : x ≤ w)
    (hd : 0 < d) (hw : 0 < w) :
    secondsToPixel (pixelToSeconds x d w) d w = x := by
  unfold pixelToSeconds secondsToPixel
  field_simp
  ring

theorem pixel_seconds_roundtrip_witness :
    secondsToPixel (pixelToSeconds 200 4 800) 4 800 = 200 :=
  pixel_seconds_roundtrip 200 4 800 (by norm_num) (by norm_num) (by norm_num) (by norm_num)

/-- C9: for every slot whose sample is absent or not loaded, the
trim-update operation is a no-op: it returns the engine unchanged and
emits no event. -/
theorem updateTrimBars_noop_unloaded (e : SamplerEngine) (i : ℕ) (l r w : ℚ)
    (h : e.samples.getD i none = none ∨
         ∃ t, e.samples.getD i none = some t ∧ t.loaded = false) :
    e.updateTrimBars i l r w = (e, []) := by
  rcases h with h | ⟨t, ht, hlt⟩ <;>
    rw [List.getD_eq_getElem?_getD] at *
  · simp [SamplerEngine.updateTrimBars, h]
  · simp [SamplerEngine.updateTrimBars, ht, SoundSample.isLoaded, hlt]

theorem updateTrimBars_noop_unloaded_witness :
    emptyEngine.updateTrimBars 0 10 20 800 = (emptyEngine, []) :=
  updateTrimBars_noop_unloaded emptyEngine 0 10 20 800 (Or.inl rfl)

/-- C10: for every index outside [0, padCount) and for every in-range
index whose slot holds no sample or an unloaded sample,
SamplerEngine.playSound returns without starting playback, emits no
event, and leaves all engine state unchanged. -/
theorem playSound_rejects_invalid (e : SamplerEngine) (index : ℤ)
    (h : index < 0 ∨ (e.padCount : ℤ) ≤ index ∨
         e.samples.getD index.toNat none = none ∨
         ∃ t, e.samples.getD index.toNat none = some t ∧ t.loaded = false) :
    e.playSound index = (e, [], none) := by
  unfold SamplerEngine.playSound
  by_cases hc : index < 0 ∨ (e.padCount : ℤ) ≤ index
  · rw [if_pos hc]
  · rw [if_neg hc]
    rcases h with h | h | h | ⟨t, ht, hlt⟩
    · exact absurd (Or.inl h) hc
    · exact absurd (Or.inr h) hc
    · rw [List.getD_eq_getElem?_getD] at h
      simp [h]
    · rw [List.getD_eq_getElem?_getD] at ht
      simp [ht, SoundSample.isLoaded, hlt]

theorem playSound_rejects_invalid_witness :
    emptyEngine.playSound 5 = (emptyEngine, [], none) :=
  playSound_rejects_invalid emptyEngine 5
    (Or.inr (Or.inl (by norm_num [emptyEngine, SamplerEngine.create])))
